import Mathlib

/-!
Verification development for the motion repository core:
value reconciliation (src/motion/utils/use-motion-values.ts) and
context propagation (src/motion/context/MotionContext.ts).

The embedding is shallow: JavaScript objects used as string-keyed maps
become association lists, MotionValue bindings become references (Nat)
into an explicit store so that reference identity is observable, and
the registry mutations performed by a synchronization pass are recorded
as an explicit event trace.
-/

/-! ## Association-list primitives (JavaScript object semantics) -/

/-- Lookup of a key in a string-keyed association list, mirroring
JavaScript property access (absent key yields none/undefined). -/
def alookup {β : Type} (k : String) : List (String × β) → Option β
  | [] => none
  | (a, b) :: t => if a = k then some b else alookup k t

/-- Property write: update the value in place if the key exists
(first occurrence), otherwise append, as a JavaScript object does. -/
def aset {β : Type} (k : String) (v : β) : List (String × β) → List (String × β)
  | [] => [(k, v)]
  | (a, b) :: t => if a = k then (a, v) :: t else (a, b) :: aset k v t

/-- Property deletion: remove every entry under the key. -/
def aremove {β : Type} (k : String) : List (String × β) → List (String × β)
  | [] => []
  | (a, b) :: t => if a = k then aremove k t else (a, b) :: aremove k t

theorem alookup_aset_self {β : Type} (k : String) (v : β) (l : List (String × β)) :
    alookup k (aset k v l) = some v := by
  induction l with
  | nil => simp [aset, alookup]
  | cons hd t ih =>
      obtain ⟨a, b⟩ := hd
      by_cases h : a = k
      · simp [aset, alookup, h]
      · simp [aset, alookup, h, ih]

theorem alookup_aset_ne {β : Type} {k k0 : String} (v : β) (l : List (String × β))
    (h : k0 ≠ k) : alookup k0 (aset k v l) = alookup k0 l := by
  have hk : ¬ k = k0 := fun hh => h hh.symm
  induction l with
  | nil => simp [aset, alookup, hk]
  | cons hd t ih =>
      obtain ⟨a, b⟩ := hd
      by_cases ha : a = k
      · subst ha
        simp [aset, alookup, hk]
      · simp only [aset, if_neg ha, alookup]
        by_cases hb : a = k0
        · simp [hb]
        · simp [hb, ih]

theorem alookup_aremove_self {β : Type} (k : String) (l : List (String × β)) :
    alookup k (aremove k l) = none := by
  induction l with
  | nil => simp [aremove, alookup]
  | cons hd t ih =>
      obtain ⟨a, b⟩ := hd
      by_cases h : a = k
      · simp [aremove, h, ih]
      · simp [aremove, alookup, h, ih]

theorem alookup_aremove_ne {β : Type} {k k0 : String} (l : List (String × β))
    (h : k0 ≠ k) : alookup k0 (aremove k l) = alookup k0 l := by
  induction l with
  | nil => simp [aremove]
  | cons hd t ih =>
      obtain ⟨a, b⟩ := hd
      by_cases ha : a = k
      · subst ha
        have hne : ¬ a = k0 := fun hh => h hh.symm
        show alookup k0 (if a = a then aremove a t else (a, b) :: aremove a t) = _
        rw [if_pos rfl, ih, alookup, if_neg hne]
      · simp only [aremove, if_neg ha, alookup]
        by_cases hb : a = k0
        · simp [hb]
        · simp [hb, ih]

theorem alookup_aset_isSome {β : Type} {k0 : String} (k : String) (v : β)
    (l : List (String × β)) (h : (alookup k0 l).isSome = true) :
    (alookup k0 (aset k v l)).isSome = true := by
  by_cases hk : k0 = k
  · subst hk; simp [alookup_aset_self]
  · rw [alookup_aset_ne v l hk]; exact h

/-! ## Value-reconciler data model -/

/-- Plain JavaScript values carried by props (numbers or strings). -/
inductive Val where
  | num (n : Int)
  | str (s : String)
deriving DecidableEq, Repr

/-- A prop value is either a raw value or a MotionValue binding;
bindings are modelled by a reference (their object identity). -/
inductive PropVal where
  | raw (v : Val)
  | mv (ref : Nat)
deriving DecidableEq, Repr

/-- The props bag handed to useMotionValues: a top-level bag and an
optional nested style bag. -/
structure VProps where
  entries : List (String × PropVal)
  style : Option (List (String × PropVal))
deriving DecidableEq, Repr

/-- Modelled from the spec: the VisualElement registry collaborator
(src/render/VisualElement is not under src/). It holds a keyed
association from names to bindings plus a mutable staticStyle bag;
addValue/removeValue/hasValue/getValue act on the association. -/
structure VisualElement where
  values : List (String × Nat)
  staticStyle : List (String × Val)
deriving DecidableEq, Repr

/-- Modelled from the spec: the MotionValue store (src/value is not under
src/). Each binding is a reference into this store; motionValue creates
a fresh reference, set mutates the stored value in place. -/
structure MVStore where
  store : List (Nat × Val)
  nextRef : Nat
deriving DecidableEq, Repr

/-- Write into the MotionValue store (Nat-keyed association). -/
def nset (k : Nat) (v : Val) : List (Nat × Val) → List (Nat × Val)
  | [] => [(k, v)]
  | (a, b) :: t => if a = k then (a, v) :: t else (a, b) :: nset k v t

/-- Read from the MotionValue store. -/
def nlookup (k : Nat) : List (Nat × Val) → Option Val
  | [] => none
  | (a, b) :: t => if a = k then some b else nlookup k t

/-- The full mutable state touched by one synchronization pass: the
visual element, the MotionValue store, the persistent previous-values
snapshot, and a crash flag recording whether the non-null assertion
on getValue in the transform-update branch was violated. -/
structure SyncState where
  ve : VisualElement
  mvs : MVStore
  prev : List (String × PropVal)
  crashed : Bool
deriving DecidableEq, Repr

/-- Observable registry mutations emitted during a synchronization pass. -/
inductive SyncEvent where
  | addValue (k : String) (ref : Nat)
  | removeValue (k : String)
  | setValue (ref : Nat) (v : Val)
deriving DecidableEq, Repr

/-- isMotionValue applied to a possibly-absent property value. -/
def isMotionValue : Option PropVal → Bool
  | some (PropVal.mv _) => true
  | _ => false

/-- Modelled from the spec: the fixed set of transform-related property
names (src/render/dom/utils/transform is not under src/); rotation,
scale, translation axes and skew. -/
def transformProps : List String :=
  ["x", "y", "z", "translateX", "translateY", "translateZ",
   "scale", "scaleX", "scaleY", "scaleZ",
   "rotate", "rotateX", "rotateY", "rotateZ", "skewX", "skewY"]

/-- Modelled from the spec: transform-origin property names. -/
def transformOriginProps : List String := ["originX", "originY", "originZ"]

/-- Modelled from the spec: membership test for transform props. -/
abbrev isTransformProp (k : String) : Prop := k ∈ transformProps

/-- Modelled from the spec: membership test for transform-origin props. -/
abbrev isTransformOriginProp (k : String) : Prop := k ∈ transformOriginProps

/-- These are props accepted as MotionValues but never added to the
VisualElement (from use-motion-values.ts). -/
def reservedNames : List String :=
  ["dragOriginX", "dragOriginY", "_dragValueX", "_dragValueY"]

def initialSyncState : SyncState :=
  { ve := { values := [], staticStyle := [] }
    mvs := { store := [], nextRef := 0 }
    prev := []
    crashed := false }

/-! ## The synchronization pass (use-motion-values.ts) -/

/-- One iteration of the removal loop of useMotionValues: if neither the
top-level props nor the style bag supply a MotionValue under the key,
call removeValue on the registry and delete the key from the snapshot. -/
def removalStep (props : VProps) (st : SyncState) (key : String) :
    SyncState × List SyncEvent :=
  let propIsValue := isMotionValue (alookup key props.entries)
  let styleIsValue :=
    match props.style with
    | some sty => isMotionValue (alookup key sty)
    | none => false
  if !propIsValue && !styleIsValue then
    ({ st with
        ve := { st.ve with values := aremove key st.ve.values }
        prev := aremove key st.prev },
     [SyncEvent.removeValue key])
  else (st, [])

/-- The removal loop of useMotionValues over the snapshot's keys. -/
def removalLoop (props : VProps) : List String → SyncState → SyncState × List SyncEvent
  | [], st => (st, [])
  | k :: ks, st =>
      let r1 := removalStep props st k
      let r2 := removalLoop props ks r1.1
      (r2.1, r1.2 ++ r2.2)

/-- One iteration of the addMotionValues loop body: classify the value
as a MotionValue binding (registered unless reserved), a transform or
transform-origin prop (binding created on demand, or updated in place
through getValue when the raw value differs from the snapshot), or, in
style mode, a plain static style entry. The snapshot is updated exactly
when a MotionValue was found. -/
def addStep (isStyle : Bool) (key : String) (value : PropVal) (st : SyncState) :
    SyncState × List SyncEvent :=
  match value with
  | PropVal.mv ref =>
      if key ∈ reservedNames then (st, [])
      else
        ({ st with
            ve := { st.ve with values := aset key ref st.ve.values }
            prev := aset key value st.prev },
         [SyncEvent.addValue key ref])
  | PropVal.raw v =>
      if isTransformProp key ∨ isTransformOriginProp key then
        if (alookup key st.ve.values).isSome = false then
          let ref := st.mvs.nextRef
          ({ st with
              ve := { st.ve with values := aset key ref st.ve.values }
              mvs := { store := nset ref v st.mvs.store, nextRef := ref + 1 }
              prev := aset key value st.prev },
           [SyncEvent.addValue key ref])
        else if alookup key st.prev ≠ some value then
          match alookup key st.ve.values with
          | some ref =>
              ({ st with
                  mvs := { st.mvs with store := nset ref v st.mvs.store }
                  prev := aset key value st.prev },
               [SyncEvent.setValue ref v])
          | none =>
              ({ st with crashed := true, prev := aset key value st.prev }, [])
        else ({ st with prev := aset key value st.prev }, [])
      else if isStyle then
        ({ st with ve := { st.ve with staticStyle := aset key v st.ve.staticStyle } }, [])
      else (st, [])

/-- The for-in loop of addMotionValues over a source bag. -/
def addLoop (isStyle : Bool) : List (String × PropVal) → SyncState → SyncState × List SyncEvent
  | [], st => (st, [])
  | (k, v) :: rest, st =>
      let r1 := addStep isStyle k v st
      let r2 := addLoop isStyle rest r1.1
      (r2.1, r1.2 ++ r2.2)

/-- addMotionValues: in style mode the staticStyle bag is reset before
the loop (it is entirely rebuilt each pass). -/
def addMotionValues (st : SyncState) (source : List (String × PropVal)) (isStyle : Bool) :
    SyncState × List SyncEvent :=
  let st0 := if isStyle then { st with ve := { st.ve with staticStyle := [] } } else st
  addLoop isStyle source st0

/-- useMotionValues: the removal pass over the snapshot keys, then the
addition pass over the top-level props, then (if a style bag is present)
the addition pass over style in style mode. -/
def useMotionValues (props : VProps) (st : SyncState) : SyncState × List SyncEvent :=
  let r1 := removalLoop props (st.prev.map Prod.fst) st
  let r2 := addMotionValues r1.1 props.entries false
  match props.style with
  | some sty =>
      let r3 := addMotionValues r2.1 sty true
      (r3.1, r1.2 ++ r2.2 ++ r3.2)
  | none => (r2.1, r1.2 ++ r2.2)

/-- Folding a sequence of props bags through the synchronization pass
starting from a freshly mounted component. -/
def syncFold (pss : List VProps) : SyncState :=
  pss.foldl (fun s p => (useMotionValues p s).1) initialSyncState

/-! ## Concrete inputs for the rotate scenario -/

def rotateProps45 : VProps := { entries := [("rotate", PropVal.raw (Val.num 45))], style := none }

def rotateProps90 : VProps := { entries := [("rotate", PropVal.raw (Val.num 90))], style := none }

def rotateState1 : SyncState := (useMotionValues rotateProps45 initialSyncState).1

/-- C1: declaring the raw transform prop rotate 45 with no existing binding
does create a registry binding under rotate with value 45; but when the next
evaluation supplies rotate 90 the pass does NOT call set on that binding:
the removal pass (the raw value 45 is not a MotionValue) first removes the
binding, and the addition pass then registers a brand-new binding (reference
1, not the original 0) initialized to 90, emitting removeValue followed by
addValue and no setValue event. The registry entry after the second pass is
a replacement binding, contradicting the claimed identity preservation. -/
theorem rotate_binding_replaced_not_updated :
    alookup "rotate" rotateState1.ve.values = some 0 ∧
    nlookup 0 rotateState1.mvs.store = some (Val.num 45) ∧
    (useMotionValues rotateProps90 rotateState1).2 =
      [SyncEvent.removeValue "rotate", SyncEvent.addValue "rotate" 1] ∧
    alookup "rotate" (useMotionValues rotateProps90 rotateState1).1.ve.values = some 1 := by
  decide

/-- C2: running the synchronization pass twice with the identical props bag
rotate 45 is not mutation-free on the second pass: the second pass emits a
removeValue for rotate followed by an addValue registering a fresh
replacement binding (reference 1), so the trace of registry mutations on the
second pass is nonempty and even replaces the binding identity. -/
theorem second_sync_with_identical_props_mutates :
    (useMotionValues rotateProps45 rotateState1).2 =
      [SyncEvent.removeValue "rotate", SyncEvent.addValue "rotate" 1] ∧
    (useMotionValues rotateProps45 rotateState1).2 ≠ [] ∧
    alookup "rotate" (useMotionValues rotateProps45 rotateState1).1.ve.values ≠
      alookup "rotate" rotateState1.ve.values := by
  decide

/-! ## Structural lemmas about one addition step -/

theorem aremove_none {β : Type} {k k0 : String} (l : List (String × β))
    (h : alookup k0 l = none) : alookup k0 (aremove k l) = none := by
  by_cases hk : k0 = k
  · subst hk; exact alookup_aremove_self _ l
  · rw [alookup_aremove_ne l hk]; exact h

theorem transform_not_reserved {k : String}
    (h : isTransformProp k ∨ isTransformOriginProp k) : k ∉ reservedNames := by
  rcases h with h | h
  · have h2 : k ∈ ["x", "y", "z", "translateX", "translateY", "translateZ",
        "scale", "scaleX", "scaleY", "scaleZ",
        "rotate", "rotateX", "rotateY", "rotateZ", "skewX", "skewY"] := h
    fin_cases h2 <;> decide
  · have h2 : k ∈ ["originX", "originY", "originZ"] := h
    fin_cases h2 <;> decide

/-- The snapshot after an addition step is either untouched or updated
at the processed key. -/
theorem addStep_prev_cases (isStyle : Bool) (key : String) (value : PropVal)
    (st : SyncState) :
    (addStep isStyle key value st).1.prev = st.prev ∨
    (addStep isStyle key value st).1.prev = aset key value st.prev := by
  cases value <;> unfold addStep <;> (repeat' split) <;> simp

theorem addStep_prev_mono (isStyle : Bool) (key : String) (value : PropVal)
    (st : SyncState) {k : String} (h : (alookup k st.prev).isSome = true) :
    (alookup k (addStep isStyle key value st).1.prev).isSome = true := by
  rcases addStep_prev_cases isStyle key value st with hc | hc <;> rw [hc]
  · exact h
  · exact alookup_aset_isSome _ _ _ h

theorem addLoop_prev_mono (isStyle : Bool) (src : List (String × PropVal))
    (st : SyncState) {k : String} (h : (alookup k st.prev).isSome = true) :
    (alookup k (addLoop isStyle src st).1.prev).isSome = true := by
  induction src generalizing st with
  | nil => simpa [addLoop]
  | cons hd rest ih =>
      obtain ⟨k1, v1⟩ := hd
      simp only [addLoop]
      exact ih _ (addStep_prev_mono isStyle k1 v1 st h)

/-- An addition step leaves the registry untouched at every reserved key
(the two branches that register a value are guarded away from reserved
names). -/
theorem addStep_values_reserved (isStyle : Bool) (key : String) (value : PropVal)
    (st : SyncState) {k : String} (hk : k ∈ reservedNames) :
    alookup k (addStep isStyle key value st).1.ve.values = alookup k st.ve.values := by
  cases value with
  | mv ref =>
      by_cases hres : key ∈ reservedNames
      · simp [addStep, hres]
      · have hne : k ≠ key := fun hh => hres (hh ▸ hk)
        simp [addStep, hres, alookup_aset_ne _ _ hne]
  | raw v =>
      by_cases htr : isTransformProp key ∨ isTransformOriginProp key
      · have hne : k ≠ key := fun hh => (transform_not_reserved htr) (hh ▸ hk)
        by_cases hhas : (alookup key st.ve.values).isSome = false
        · simp [addStep, htr, hhas, alookup_aset_ne _ _ hne]
        · by_cases hdiff : alookup key st.prev ≠ some (PropVal.raw v)
          · cases hv : alookup key st.ve.values with
            | none => rw [hv] at hhas; simp at hhas
            | some ref0 => simp [addStep, htr, hhas, hdiff, hv]
          · simp [addStep, htr, hhas, hdiff]
      · cases isStyle <;> simp [addStep, htr]

/-- No addition step ever emits an addValue event under a reserved name. -/
theorem addStep_no_reserved_addValue (isStyle : Bool) (key : String) (value : PropVal)
    (st : SyncState) {k : String} (hk : k ∈ reservedNames) (ref : Nat) :
    SyncEvent.addValue k ref ∉ (addStep isStyle key value st).2 := by
  cases value with
  | mv ref1 =>
      by_cases hres : key ∈ reservedNames
      · simp [addStep, hres]
      · have hne : k ≠ key := fun hh => hres (hh ▸ hk)
        simp [addStep, hres, hne]
  | raw v =>
      by_cases htr : isTransformProp key ∨ isTransformOriginProp key
      · have hne : k ≠ key := fun hh => (transform_not_reserved htr) (hh ▸ hk)
        by_cases hhas : (alookup key st.ve.values).isSome = false
        · simp [addStep, htr, hhas, hne]
        · by_cases hdiff : alookup key st.prev ≠ some (PropVal.raw v)
          · cases hv : alookup key st.ve.values with
            | none => rw [hv] at hhas; simp at hhas
            | some ref0 => simp [addStep, htr, hhas, hdiff, hv]
          · simp [addStep, htr, hhas, hdiff]
      · cases isStyle <;> simp [addStep, htr]

/-- The crash flag is never raised by an addition step: the branch that
dereferences getValue is only reached under a true hasValue check. -/
theorem addStep_no_crash (isStyle : Bool) (key : String) (value : PropVal)
    (st : SyncState) (h : st.crashed = false) :
    (addStep isStyle key value st).1.crashed = false := by
  cases value with
  | mv ref =>
      by_cases hres : key ∈ reservedNames <;> simp [addStep, hres, h]
  | raw v =>
      by_cases htr : isTransformProp key ∨ isTransformOriginProp key
      · by_cases hhas : (alookup key st.ve.values).isSome = false
        · simp [addStep, htr, hhas, h]
        · by_cases hdiff : alookup key st.prev ≠ some (PropVal.raw v)
          · cases hv : alookup key st.ve.values with
            | none => rw [hv] at hhas; simp at hhas
            | some ref0 => simp [addStep, htr, hhas, hdiff, hv, h]
          · simp [addStep, htr, hhas, hdiff, h]
      · cases isStyle <;> simp [addStep, htr, h]


/-- The result of one addition step, classified: either the step leaves
snapshot and registry untouched, or it writes the processed key into the
snapshot, the key is not reserved, and the registry either gains a
binding under the key or already had one. -/
theorem addStep_shape (isStyle : Bool) (key : String) (value : PropVal)
    (st : SyncState) :
    ((addStep isStyle key value st).1.prev = st.prev ∧
     (addStep isStyle key value st).1.ve.values = st.ve.values) ∨
    ((addStep isStyle key value st).1.prev = aset key value st.prev ∧
     key ∉ reservedNames ∧
     ((∃ r, (addStep isStyle key value st).1.ve.values = aset key r st.ve.values) ∨
      ((addStep isStyle key value st).1.ve.values = st.ve.values ∧
       (alookup key st.ve.values).isSome = true))) := by
  cases value with
  | mv ref =>
      by_cases hres : key ∈ reservedNames
      · left; simp [addStep, hres]
      · right
        exact ⟨by simp [addStep, hres], hres, Or.inl ⟨ref, by simp [addStep, hres]⟩⟩
  | raw v =>
      by_cases htr : isTransformProp key ∨ isTransformOriginProp key
      · have hnres := transform_not_reserved htr
        by_cases hhas : (alookup key st.ve.values).isSome = false
        · right
          exact ⟨by simp [addStep, htr, hhas], hnres,
                 Or.inl ⟨st.mvs.nextRef, by simp [addStep, htr, hhas]⟩⟩
        · have hsome : (alookup key st.ve.values).isSome = true := by
            cases hb : (alookup key st.ve.values).isSome
            · exact absurd hb hhas
            · rfl
          by_cases hdiff : alookup key st.prev ≠ some (PropVal.raw v)
          · cases hv : alookup key st.ve.values with
            | none => rw [hv] at hsome; simp at hsome
            | some ref0 =>
                right
                exact ⟨by simp [addStep, htr, hhas, hdiff, hv], hnres,
                       Or.inr ⟨by simp [addStep, htr, hhas, hdiff, hv], rfl⟩⟩
          · right
            exact ⟨by simp [addStep, htr, hhas, hdiff], hnres,
                   Or.inr ⟨by simp [addStep, htr, hhas, hdiff], hsome⟩⟩
      · left
        cases isStyle <;> simp [addStep, htr]

/-- The result of one removal step: either unchanged, or the key is
deleted from both the snapshot and the registry together. -/
theorem removalStep_cases (props : VProps) (st : SyncState) (key : String) :
    (removalStep props st key).1 = st ∨
    (removalStep props st key).1 =
      { st with ve := { st.ve with values := aremove key st.ve.values }
                prev := aremove key st.prev } := by
  unfold removalStep
  split <;> dsimp only <;> split
  all_goals first | (left; rfl) | (right; rfl)

/-! ## The snapshot/registry invariant -/

/-- Internal strengthening of the snapshot invariant: every snapshot key
is currently registered and is not a reserved name. -/
def SnapInvAux (st : SyncState) : Prop :=
  ∀ k, (alookup k st.prev).isSome = true →
    (alookup k st.ve.values).isSome = true ∧ k ∉ reservedNames

theorem addStep_inv (isStyle : Bool) (key : String) (value : PropVal)
    (st : SyncState) (h : SnapInvAux st) : SnapInvAux (addStep isStyle key value st).1 := by
  intro k hk
  rcases addStep_shape isStyle key value st with ⟨hp, hv2⟩ | ⟨hp, hres, hrest⟩
  · rw [hp] at hk; rw [hv2]; exact h k hk
  · rw [hp] at hk
    by_cases hkey : k = key
    · subst hkey
      refine ⟨?_, hres⟩
      rcases hrest with ⟨r, hv2⟩ | ⟨hv2, hsome⟩
      · rw [hv2]; simp [alookup_aset_self]
      · rw [hv2]; exact hsome
    · rw [alookup_aset_ne _ _ hkey] at hk
      obtain ⟨h1, h2⟩ := h k hk
      refine ⟨?_, h2⟩
      rcases hrest with ⟨r, hv2⟩ | ⟨hv2, _⟩
      · rw [hv2]; exact alookup_aset_isSome _ _ _ h1
      · rw [hv2]; exact h1

theorem addLoop_inv (isStyle : Bool) (src : List (String × PropVal))
    (st : SyncState) (h : SnapInvAux st) : SnapInvAux (addLoop isStyle src st).1 := by
  induction src generalizing st with
  | nil => simpa [addLoop]
  | cons hd rest ih =>
      obtain ⟨k1, v1⟩ := hd
      simp only [addLoop]
      exact ih _ (addStep_inv isStyle k1 v1 st h)

theorem removalStep_inv (props : VProps) (st : SyncState) (key : String)
    (h : SnapInvAux st) : SnapInvAux (removalStep props st key).1 := by
  rcases removalStep_cases props st key with hc | hc <;> rw [hc]
  · exact h
  · intro k hk
    simp only at hk ⊢
    by_cases hkey : k = key
    · subst hkey
      rw [alookup_aremove_self] at hk
      simp at hk
    · rw [alookup_aremove_ne _ hkey] at hk
      obtain ⟨h1, h2⟩ := h k hk
      exact ⟨by rw [alookup_aremove_ne _ hkey]; exact h1, h2⟩

theorem removalLoop_inv (props : VProps) (ks : List String)
    (st : SyncState) (h : SnapInvAux st) : SnapInvAux (removalLoop props ks st).1 := by
  induction ks generalizing st with
  | nil => simpa [removalLoop]
  | cons k1 rest ih =>
      simp only [removalLoop]
      exact ih _ (removalStep_inv props st k1 h)

theorem addMotionValues_inv (st : SyncState) (source : List (String × PropVal))
    (isStyle : Bool) (h : SnapInvAux st) : SnapInvAux (addMotionValues st source isStyle).1 := by
  unfold addMotionValues
  cases isStyle with
  | false => simpa using addLoop_inv false source st h
  | true =>
      simp only [if_pos]
      apply addLoop_inv
      intro k hk
      exact h k hk

theorem useMotionValues_inv (props : VProps) (st : SyncState)
    (h : SnapInvAux st) : SnapInvAux (useMotionValues props st).1 := by
  unfold useMotionValues
  have h1 := removalLoop_inv props (st.prev.map Prod.fst) st h
  have h2 := addMotionValues_inv _ props.entries false h1
  cases hsty : props.style with
  | none => simpa using h2
  | some sty => simpa using addMotionValues_inv _ sty true h2

theorem foldl_inv (pss : List VProps) (st : SyncState) (h : SnapInvAux st) :
    SnapInvAux (pss.foldl (fun s p => (useMotionValues p s).1) st) := by
  induction pss generalizing st with
  | nil => simpa
  | cons p rest ih => exact ih _ (useMotionValues_inv p st h)

theorem syncFold_inv (pss : List VProps) : SnapInvAux (syncFold pss) := by
  have base : SnapInvAux initialSyncState := by
    intro k hk
    simp [initialSyncState, alookup] at hk
  exact foldl_inv pss initialSyncState base

/-! ## Coverage of declared bindings by the snapshot -/

/-- Processing a source bag whose first entry under a non-reserved key is
a MotionValue leaves that key present in the snapshot. -/
theorem addLoop_sets_mv (isStyle : Bool) (src : List (String × PropVal))
    (st : SyncState) {k : String} {ref : Nat}
    (hsrc : alookup k src = some (PropVal.mv ref)) (hres : k ∉ reservedNames) :
    (alookup k (addLoop isStyle src st).1.prev).isSome = true := by
  induction src generalizing st with
  | nil => simp [alookup] at hsrc
  | cons hd rest ih =>
      obtain ⟨k1, v1⟩ := hd
      by_cases hk : k1 = k
      · subst hk
        rw [alookup, if_pos rfl] at hsrc
        injection hsrc with hv
        subst hv
        simp only [addLoop]
        apply addLoop_prev_mono
        simp only [addStep, if_neg hres]
        simp [alookup_aset_self]
      · rw [alookup, if_neg hk] at hsrc
        simp only [addLoop]
        exact ih _ hsrc

/-- The two directions of the C3 invariant, stated on a synchronized
state: every snapshot key is registered in the visual element, and every
non-reserved key whose current prop value (top-level or style) is a
MotionValue binding has a snapshot entry. -/
def snapshotRegistered (st : SyncState) : Prop :=
  ∀ k, (alookup k st.prev).isSome = true → (alookup k st.ve.values).isSome = true

def declaredCovered (p : VProps) (st : SyncState) : Prop :=
  ∀ k ref,
    (alookup k p.entries = some (PropVal.mv ref) ∨
     (∃ sty, p.style = some sty ∧ alookup k sty = some (PropVal.mv ref))) →
    k ∉ reservedNames →
    (alookup k st.prev).isSome = true

theorem addMotionValues_sets_mv (st : SyncState) (source : List (String × PropVal))
    (isStyle : Bool) {k : String} {ref : Nat}
    (hsrc : alookup k source = some (PropVal.mv ref)) (hres : k ∉ reservedNames) :
    (alookup k (addMotionValues st source isStyle).1.prev).isSome = true := by
  cases isStyle
  · exact addLoop_sets_mv false source st hsrc hres
  · exact addLoop_sets_mv true source _ hsrc hres

theorem addMotionValues_prev_mono (st : SyncState) (source : List (String × PropVal))
    (isStyle : Bool) {k : String} (h : (alookup k st.prev).isSome = true) :
    (alookup k (addMotionValues st source isStyle).1.prev).isSome = true := by
  cases isStyle
  · exact addLoop_prev_mono _ _ _ h
  · exact addLoop_prev_mono _ _ _ h

theorem useMotionValues_declared (p : VProps) (st : SyncState) :
    declaredCovered p (useMotionValues p st).1 := by
  intro k ref hdecl hres
  unfold useMotionValues
  cases hsty : p.style with
  | none =>
      rcases hdecl with hd | ⟨sty, hs, _⟩
      · exact addMotionValues_sets_mv _ p.entries false hd hres
      · rw [hsty] at hs; cases hs
  | some sty =>
      rcases hdecl with hd | ⟨sty2, hs, hd⟩
      · exact addMotionValues_prev_mono _ sty true
          (addMotionValues_sets_mv _ p.entries false hd hres)
      · rw [hsty] at hs
        injection hs with hs2
        subst hs2
        exact addMotionValues_sets_mv _ sty true hd hres

/-- C3: for every sequence of prop changes applied from a fresh mount,
after the final synchronization pass the previous-bindings snapshot and
the registry agree: every snapshot key is currently registered in the
visual element (no stale snapshot keys), and every non-reserved key that
the final props bag declares as a MotionValue binding (top-level or in
style) is present in the snapshot (no missing snapshot keys for
currently-declared bindings; reserved names are intentionally excluded
from both the registry and the snapshot). -/
theorem snapshot_registry_agreement (pss : List VProps) (p : VProps) :
    snapshotRegistered (syncFold (pss ++ [p])) ∧
    declaredCovered p (syncFold (pss ++ [p])) := by
  constructor
  · intro k hk
    exact (syncFold_inv (pss ++ [p]) k hk).1
  · have hfold : syncFold (pss ++ [p]) = (useMotionValues p (syncFold pss)).1 := by
      unfold syncFold
      rw [List.foldl_append]
      rfl
    rw [hfold]
    exact useMotionValues_declared p (syncFold pss)

def opacityProps : VProps :=
  { entries := [("opacity", PropVal.mv 7)], style := some [("width", PropVal.mv 8)] }

/-- Witness for C3 at a concrete two-render sequence. -/
theorem snapshot_registry_agreement_witness :
    snapshotRegistered (syncFold ([rotateProps45] ++ [opacityProps])) ∧
    declaredCovered opacityProps (syncFold ([rotateProps45] ++ [opacityProps])) :=
  snapshot_registry_agreement [rotateProps45] opacityProps

/-! ## Reserved names are never registered (C8) and the transform-update
branch never dereferences an absent binding (C9) -/

theorem removalStep_no_addValue (props : VProps) (st : SyncState) (key : String)
    (k : String) (ref : Nat) :
    SyncEvent.addValue k ref ∉ (removalStep props st key).2 := by
  unfold removalStep
  split <;> dsimp only <;> split <;> simp

theorem removalLoop_no_addValue (props : VProps) (ks : List String) (st : SyncState)
    (k : String) (ref : Nat) :
    SyncEvent.addValue k ref ∉ (removalLoop props ks st).2 := by
  induction ks generalizing st with
  | nil => simp [removalLoop]
  | cons k1 rest ih =>
      simp only [removalLoop, List.mem_append]
      push_neg
      exact ⟨removalStep_no_addValue props st k1 k ref, ih _⟩

theorem addLoop_no_reserved_addValue (isStyle : Bool) (src : List (String × PropVal))
    (st : SyncState) {k : String} (hres : k ∈ reservedNames) (ref : Nat) :
    SyncEvent.addValue k ref ∉ (addLoop isStyle src st).2 := by
  induction src generalizing st with
  | nil => simp [addLoop]
  | cons hd rest ih =>
      obtain ⟨k1, v1⟩ := hd
      simp only [addLoop, List.mem_append]
      push_neg
      exact ⟨addStep_no_reserved_addValue isStyle k1 v1 st hres ref, ih _⟩

theorem removalStep_crashed (props : VProps) (st : SyncState) (key : String) :
    (removalStep props st key).1.crashed = st.crashed := by
  rcases removalStep_cases props st key with hc | hc <;> rw [hc]

theorem removalLoop_crashed (props : VProps) (ks : List String) (st : SyncState) :
    (removalLoop props ks st).1.crashed = st.crashed := by
  induction ks generalizing st with
  | nil => simp [removalLoop]
  | cons k1 rest ih =>
      simp only [removalLoop]
      rw [ih, removalStep_crashed]

theorem addLoop_no_crash (isStyle : Bool) (src : List (String × PropVal))
    (st : SyncState) (h : st.crashed = false) :
    (addLoop isStyle src st).1.crashed = false := by
  induction src generalizing st with
  | nil => simpa [addLoop]
  | cons hd rest ih =>
      obtain ⟨k1, v1⟩ := hd
      simp only [addLoop]
      exact ih _ (addStep_no_crash isStyle k1 v1 st h)

theorem removalStep_values_none (props : VProps) (st : SyncState) (key : String)
    {k : String} (h : alookup k st.ve.values = none) :
    alookup k (removalStep props st key).1.ve.values = none := by
  rcases removalStep_cases props st key with hc | hc <;> rw [hc]
  · exact h
  · exact aremove_none _ h

theorem removalLoop_values_none (props : VProps) (ks : List String) (st : SyncState)
    {k : String} (h : alookup k st.ve.values = none) :
    alookup k (removalLoop props ks st).1.ve.values = none := by
  induction ks generalizing st with
  | nil => simpa [removalLoop]
  | cons k1 rest ih =>
      simp only [removalLoop]
      exact ih _ (removalStep_values_none props st k1 h)

theorem addLoop_values_reserved (isStyle : Bool) (src : List (String × PropVal))
    (st : SyncState) {k : String} (hres : k ∈ reservedNames) :
    alookup k (addLoop isStyle src st).1.ve.values = alookup k st.ve.values := by
  induction src generalizing st with
  | nil => simp [addLoop]
  | cons hd rest ih =>
      obtain ⟨k1, v1⟩ := hd
      simp only [addLoop]
      rw [ih _, addStep_values_reserved isStyle k1 v1 st hres]

/-- C8: supplying a MotionValue binding under a reserved name, whether at
the top level of props or inside the style bag, never yields a registry
entry for that name: no synchronization pass ever emits an addValue event
under a reserved name, and a reserved name absent from the registry
before a pass is still absent after it. -/
theorem reserved_names_never_registered (props : VProps) (st : SyncState)
    (k : String) (hres : k ∈ reservedNames) :
    (∀ ref, SyncEvent.addValue k ref ∉ (useMotionValues props st).2) ∧
    (alookup k st.ve.values = none →
      alookup k (useMotionValues props st).1.ve.values = none) := by
  constructor
  · intro ref hmem
    unfold useMotionValues at hmem
    cases hsty : props.style with
    | none =>
        rw [hsty] at hmem
        dsimp only at hmem
        simp only [List.mem_append] at hmem
        rcases hmem with hmem | hmem
        · exact removalLoop_no_addValue props _ st k ref hmem
        · exact addLoop_no_reserved_addValue false props.entries _ hres ref hmem
    | some sty =>
        rw [hsty] at hmem
        dsimp only at hmem
        simp only [List.mem_append] at hmem
        rcases hmem with (hmem | hmem) | hmem
        · exact removalLoop_no_addValue props _ st k ref hmem
        · exact addLoop_no_reserved_addValue false props.entries _ hres ref hmem
        · exact addLoop_no_reserved_addValue true sty _ hres ref hmem
  · intro hnone
    unfold useMotionValues
    cases hsty : props.style with
    | none =>
        show alookup k (addLoop false props.entries
            (removalLoop props (st.prev.map Prod.fst) st).1).1.ve.values = none
        rw [addLoop_values_reserved false props.entries _ hres]
        exact removalLoop_values_none props _ st hnone
    | some sty =>
        show alookup k (addLoop true sty
            (let s2 := (addLoop false props.entries
                (removalLoop props (st.prev.map Prod.fst) st).1).1
             { s2 with ve := { s2.ve with staticStyle := [] } })).1.ve.values = none
        rw [addLoop_values_reserved true sty _ hres]
        show alookup k (addLoop false props.entries
            (removalLoop props (st.prev.map Prod.fst) st).1).1.ve.values = none
        rw [addLoop_values_reserved false props.entries _ hres]
        exact removalLoop_values_none props _ st hnone

def dragProps : VProps :=
  { entries := [("dragOriginX", PropVal.mv 7)]
    style := some [("_dragValueY", PropVal.mv 8)] }

/-- Witness for C8: a props bag supplying reserved-name bindings both at
the top level and in style produces no addValue event for them and no
registry entry. -/
theorem reserved_names_never_registered_witness :
    (SyncEvent.addValue "dragOriginX" 7 ∉ (useMotionValues dragProps initialSyncState).2) ∧
    alookup "dragOriginX" (useMotionValues dragProps initialSyncState).1.ve.values = none :=
  ⟨(reserved_names_never_registered dragProps initialSyncState "dragOriginX"
      (by decide)).1 7,
   (reserved_names_never_registered dragProps initialSyncState "dragOriginX"
      (by decide)).2 (by decide)⟩

/-- C9: the non-null assertion on getValue in the transform-property
update branch is safe. In the model the branch that would dereference an
absent binding records a crash; since that branch is only reachable under
a true hasValue check and the registry contract makes getValue return a
binding exactly when hasValue is true, no synchronization pass can raise
the crash flag. -/
theorem transform_update_never_crashes (props : VProps) (st : SyncState)
    (h : st.crashed = false) : (useMotionValues props st).1.crashed = false := by
  unfold useMotionValues
  cases hsty : props.style with
  | none =>
      show (addLoop false props.entries
          (removalLoop props (st.prev.map Prod.fst) st).1).1.crashed = false
      apply addLoop_no_crash
      rw [removalLoop_crashed]
      exact h
  | some sty =>
      show (addLoop true sty
          (let s2 := (addLoop false props.entries
              (removalLoop props (st.prev.map Prod.fst) st).1).1
           { s2 with ve := { s2.ve with staticStyle := [] } })).1.crashed = false
      apply addLoop_no_crash
      show (addLoop false props.entries
          (removalLoop props (st.prev.map Prod.fst) st).1).1.crashed = false
      apply addLoop_no_crash
      rw [removalLoop_crashed]
      exact h

def mixedProps : VProps :=
  { entries := [("x", PropVal.mv 9)]
    style := some [("x", PropVal.raw (Val.num 3))] }

/-- Witness for C9: a pass that actually exercises the update branch
(top-level binding under x, raw style value under x, so getValue is
dereferenced and set is invoked) does not crash. -/
theorem transform_update_never_crashes_witness :
    (useMotionValues mixedProps initialSyncState).1.crashed = false ∧
    SyncEvent.setValue 9 (Val.num 3) ∈ (useMotionValues mixedProps initialSyncState).2 :=
  ⟨transform_update_never_crashes mixedProps initialSyncState (by decide), by decide⟩

/-! ## Context-propagator data model (MotionContext.ts)

Object-valued props (variant-label arrays, literal targets, controls
handles) are modelled by a reference (Nat) standing for their JavaScript
object identity, so that the dependency comparison of the memoization is
exactly JS Object.is: strings compare by value, objects by reference. -/

/-- A VariantLabels value as stored in a context: a single label string
or a label array (by reference). -/
inductive VLabels where
  | lbl (s : String)
  | lblArr (ref : Nat)
deriving DecidableEq, Repr

/-- The raw animate prop: undefined, a variant label (string or array),
a literal target object, or an imperative AnimationControls handle. The
same type models the whileTap and whileHover props. -/
inductive AnimateProp where
  | undef
  | lbl (s : String)
  | lblArr (ref : Nat)
  | target (ref : Nat)
  | controlsHandle (ref : Nat)
deriving DecidableEq, Repr

/-- The raw initial prop: undefined, a boolean, a variant label, or a
literal target. -/
inductive InitialProp where
  | undef
  | bTrue
  | bFalse
  | lbl (s : String)
  | lblArr (ref : Nat)
  | target (ref : Nat)
deriving DecidableEq, Repr

/-- A resolved initial state: a Target or VariantLabels value
(the initialState local of useMotionContext); none is undefined. -/
inductive TAL where
  | lbl (s : String)
  | lblArr (ref : Nat)
  | target (ref : Nat)
deriving DecidableEq, Repr

/-- The initial field of a context: literal false or VariantLabels. -/
inductive CtxInitial where
  | isFalse
  | lbl (s : String)
  | lblArr (ref : Nat)
deriving DecidableEq, Repr

/-- Modelled from the spec: the ambient presence scope, an optional
record with an id and an optional initial override
(src/components/AnimatePresence/PresenceContext is not under src/). -/
structure Presence where
  id : Nat
  initial : Option InitialProp
deriving DecidableEq, Repr

/-- The props consumed by useMotionContext. -/
structure CtxProps where
  initial : InitialProp
  animate : AnimateProp
  variants : Option Nat
  whileTap : AnimateProp
  whileHover : AnimateProp
  layoutId : Option String
deriving DecidableEq, Repr

/-- The MotionContextProps record provided to children. Collaborator
objects (controls, refs, deltas, the layout-progress binding) appear as
references; the static field is refreshed on every evaluation. The
values field mirrors the identifier of the same name referenced by the
source's context literal (it is not bound anywhere in the file and is
modelled as an opaque persistent value). -/
structure MotionContextProps where
  controls : Option Nat
  initial : Option CtxInitial
  animate : Option VLabels
  values : Option Nat
  hasMounted : Option Nat
  isReducedMotion : Option Bool
  presenceId : Option Nat
  layoutDepth : Int
  layoutDelta : Option Nat
  layoutDeltas : List Nat
  layoutProgress : Option Nat
  isPresenceRoot : Bool
  static : Bool
deriving DecidableEq, Repr

/-- The default context value of MotionContext. -/
def initialMotionContext : MotionContextProps :=
  { controls := none
    initial := none
    animate := none
    values := none
    hasMounted := none
    isReducedMotion := none
    presenceId := none
    layoutDepth := -1
    layoutDelta := none
    layoutDeltas := []
    layoutProgress := none
    isPresenceRoot := false
    static := false }

/-- isVariantLabel: a string or an array of strings. -/
def isVariantLabel : AnimateProp → Bool
  | AnimateProp.lbl _ => true
  | AnimateProp.lblArr _ => true
  | _ => false

/-- isAnimationControls: an instance of the AnimationControls class. -/
def isAnimationControls : AnimateProp → Bool
  | AnimateProp.controlsHandle _ => true
  | _ => false

/-- JavaScript truthiness of the animate prop as used in the layoutDepth
computation: undefined and the empty-string label are falsy, every other
value (nonempty label, label array, target object, controls handle) is
truthy. -/
def truthyAnimate : AnimateProp → Bool
  | AnimateProp.undef => false
  | AnimateProp.lbl s => !(s == "")
  | _ => true

/-- The per-component values created once at mount and reused on every
evaluation: the zero layout delta, the layoutDeltas ref contents, the
layout-progress binding, the hasMounted ref, and the opaque value bound
to the context literal's values field. -/
structure PersistentState where
  layoutDelta : Nat
  layoutDeltas : List Nat
  layoutProgress : Nat
  hasMounted : Nat
  values : Option Nat
deriving DecidableEq, Repr

/-- Override of the initial prop by the ambient presence scope:
presenceContext.initial replaces it when defined. -/
def effectiveInitial (presence : Option Presence) (initial : InitialProp) : InitialProp :=
  match presence with
  | some pc =>
      match pc.initial with
      | some i => i
      | none => initial
  | none => initial

/-- The cast of the animate prop to a Target or VariantLabels value (the
initialState assignment in the initial-is-false branch; the controls
handle case is excluded by the guard before this cast is reached). -/
def animateAsTAL : AnimateProp → Option TAL
  | AnimateProp.lbl s => some (TAL.lbl s)
  | AnimateProp.lblArr r => some (TAL.lblArr r)
  | AnimateProp.target r => some (TAL.target r)
  | _ => none

/-- A non-boolean initial prop viewed as a Target or VariantLabels value. -/
def initialAsTAL : InitialProp → Option TAL
  | InitialProp.lbl s => some (TAL.lbl s)
  | InitialProp.lblArr r => some (TAL.lblArr r)
  | InitialProp.target r => some (TAL.target r)
  | _ => none

def isBooleanInitial : InitialProp → Bool
  | InitialProp.bTrue => true
  | InitialProp.bFalse => true
  | _ => false

/-- The initialState computation of useMotionContext: apply the presence
override, then if initial is the literal false and animate is not an
AnimationControls handle take the animate value itself; otherwise, if
initial is not a boolean, take initial directly; otherwise undefined. -/
def resolveInitialState (presence : Option Presence) (initial0 : InitialProp)
    (animate : AnimateProp) : Option TAL :=
  let initial := effectiveInitial presence initial0
  if initial = InitialProp.bFalse && !(isAnimationControls animate) then
    animateAsTAL animate
  else if !(isBooleanInitial initial) then
    initialAsTAL initial
  else none

/-- shouldPropagateControls: variants are declared, or animate, whileTap
or whileHover is a variant label, or animate is a controls handle. -/
def shouldPropagateControls (props : CtxProps) : Bool :=
  props.variants.isSome || isVariantLabel props.animate ||
    isVariantLabel props.whileTap || isVariantLabel props.whileHover ||
    isAnimationControls props.animate

/-- isVariantLabel applied to the resolved initial state. -/
def isVariantLabelTAL : Option TAL → Bool
  | some (TAL.lbl _) => true
  | some (TAL.lblArr _) => true
  | _ => false

def talAsCtxInitial : Option TAL → Option CtxInitial
  | some (TAL.lbl s) => some (CtxInitial.lbl s)
  | some (TAL.lblArr r) => some (CtxInitial.lblArr r)
  | _ => none

/-- targetInitial: propagate this component's initial state if it is a
variant label, else pass the parent's initial through. -/
def targetInitial (parent : MotionContextProps) (initialState : Option TAL) :
    Option CtxInitial :=
  if isVariantLabelTAL initialState then talAsCtxInitial initialState
  else parent.initial

def animateAsVLabels : AnimateProp → Option VLabels
  | AnimateProp.lbl s => some (VLabels.lbl s)
  | AnimateProp.lblArr r => some (VLabels.lblArr r)
  | _ => none

/-- targetAnimate: propagate the animate prop if it is a variant label,
else pass the parent's animate through. -/
def targetAnimate (parent : MotionContextProps) (animate : AnimateProp) :
    Option VLabels :=
  if isVariantLabel animate then animateAsVLabels animate
  else parent.animate

/-- The dependency list of the context memoization, in source order:
initialDependency, animateDependency, the parent's reduced-motion flag,
the raw animate prop, layoutId, presenceId. The initialDependency
distinguishes null (non-static mode) from an undefined targetInitial in
static mode, as Object.is does. -/
structure Deps where
  initialDependency : Option (Option CtxInitial)
  animateDependency : Option VLabels
  isReducedMotion : Option Bool
  animate : AnimateProp
  layoutId : Option String
  presenceId : Option Nat
deriving DecidableEq, Repr

def computeDeps (parent : MotionContextProps) (isStatic : Bool) (props : CtxProps)
    (presence : Option Presence) : Deps :=
  let initialState := resolveInitialState presence props.initial props.animate
  let tInit := targetInitial parent initialState
  let tAnim := targetAnimate parent props.animate
  { initialDependency := if isStatic then some tInit else none
    animateDependency :=
      if shouldPropagateControls props && tAnim.isSome then tAnim else none
    isReducedMotion := parent.isReducedMotion
    animate := props.animate
    layoutId := props.layoutId
    presenceId := presence.map Presence.id }

/-- The context object built by the useMemo factory of useMotionContext,
with the static field already refreshed (the assignment that follows the
memoization on every evaluation). -/
def buildContext (parent : MotionContextProps) (controls : Nat) (isStatic : Bool)
    (props : CtxProps) (presence : Option Presence) (ps : PersistentState) :
    MotionContextProps :=
  let presenceId := presence.map Presence.id
  let initialState := resolveInitialState presence props.initial props.animate
  { controls :=
      if shouldPropagateControls props then some controls else parent.controls
    initial := targetInitial parent initialState
    animate := targetAnimate parent props.animate
    values := ps.values
    hasMounted := some ps.hasMounted
    isReducedMotion := parent.isReducedMotion
    presenceId := presenceId
    layoutDepth :=
      if truthyAnimate props.animate || props.layoutId.isSome then
        parent.layoutDepth + 1
      else parent.layoutDepth
    layoutDelta := some ps.layoutDelta
    layoutDeltas := ps.layoutDeltas
    layoutProgress := some ps.layoutProgress
    isPresenceRoot := parent.presenceId != presenceId
    static := isStatic }

/-- The persistent cell of the useMemo hook: the dependency list of the
last derivation, the context object it produced, and that object's
identity. -/
structure MemoCell where
  deps : Deps
  ctx : MotionContextProps
  ctxId : Nat
deriving DecidableEq, Repr

/-- One evaluation of useMotionContext: recompute the dependency list;
if a memo cell exists and its dependencies are unchanged, reuse the
stored context object (same identity) refreshing only its static field,
otherwise build a fresh context (fresh identity) and store it. Returns
the context, its identity, and the updated cell. -/
def useMotionContext (parent : MotionContextProps) (controls : Nat) (isStatic : Bool)
    (props : CtxProps) (presence : Option Presence) (ps : PersistentState)
    (cell : Option MemoCell) (freshId : Nat) :
    MotionContextProps × Nat × MemoCell :=
  let deps := computeDeps parent isStatic props presence
  match cell with
  | some c =>
      if c.deps = deps then
        let ctx := { c.ctx with static := isStatic }
        (ctx, c.ctxId, { deps := c.deps, ctx := ctx, ctxId := c.ctxId })
      else
        let ctx := buildContext parent controls isStatic props presence ps
        (ctx, freshId, { deps := deps, ctx := ctx, ctxId := freshId })
  | none =>
      let ctx := buildContext parent controls isStatic props presence ps
      (ctx, freshId, { deps := deps, ctx := ctx, ctxId := freshId })

/-! ## Concrete fixtures for the context claims -/

def psA : PersistentState :=
  { layoutDelta := 0, layoutDeltas := [0], layoutProgress := 1, hasMounted := 2,
    values := none }

def ctxParent0 : MotionContextProps := { initialMotionContext with layoutDepth := 0 }

def emptyLabelProps : CtxProps :=
  { initial := InitialProp.undef, animate := AnimateProp.lbl "", variants := none,
    whileTap := AnimateProp.undef, whileHover := AnimateProp.undef, layoutId := none }

/-- Counterexample for C4: a child that declares the animate prop (the
empty-string variant label, a declared prop that JavaScript treats as
falsy) and no layoutId keeps the parent's layoutDepth instead of
incrementing it, refuting the claim that the depth increments exactly
when an animate or layoutId prop is declared. -/
theorem layoutDepth_empty_label_cex :
    emptyLabelProps.animate ≠ AnimateProp.undef ∧
    emptyLabelProps.layoutId = none ∧
    (buildContext ctxParent0 0 false emptyLabelProps none psA).layoutDepth =
      ctxParent0.layoutDepth ∧
    (buildContext ctxParent0 0 false emptyLabelProps none psA).layoutDepth ≠
      ctxParent0.layoutDepth + 1 := by
  decide

/-- C4 (amended): for every parent context and child, the child's
layoutDepth is at least the parent's, and equals the parent's plus one
exactly when the child's animate prop is truthy (declared and not the
empty-string label) or the child declares a layoutId; otherwise it
equals the parent's layoutDepth unchanged. -/
theorem layoutDepth_monotone (parent : MotionContextProps) (controls : Nat)
    (isStatic : Bool) (props : CtxProps) (presence : Option Presence)
    (ps : PersistentState) :
    parent.layoutDepth ≤
      (buildContext parent controls isStatic props presence ps).layoutDepth ∧
    ((buildContext parent controls isStatic props presence ps).layoutDepth =
        parent.layoutDepth + 1 ↔
      ((props.animate ≠ AnimateProp.undef ∧ props.animate ≠ AnimateProp.lbl "") ∨
        props.layoutId ≠ none)) ∧
    ((buildContext parent controls isStatic props presence ps).layoutDepth =
        parent.layoutDepth ↔
      ¬((props.animate ≠ AnimateProp.undef ∧ props.animate ≠ AnimateProp.lbl "") ∨
        props.layoutId ≠ none)) := by
  have hcond : (truthyAnimate props.animate || props.layoutId.isSome) = true ↔
      ((props.animate ≠ AnimateProp.undef ∧ props.animate ≠ AnimateProp.lbl "") ∨
        props.layoutId ≠ none) := by
    cases props.animate <;> cases props.layoutId <;> simp [truthyAnimate]
  simp only [buildContext]
  by_cases hc : (truthyAnimate props.animate || props.layoutId.isSome) = true
  · rw [if_pos hc]
    exact ⟨by omega, iff_of_true rfl (hcond.mp hc),
           iff_of_false (by omega) (not_not_intro (hcond.mp hc))⟩
  · rw [if_neg hc]
    exact ⟨le_refl _, iff_of_false (by omega) (fun hr => hc (hcond.mpr hr)),
           iff_of_true rfl (fun hr => hc (hcond.mpr hr))⟩

def depthProps : CtxProps :=
  { initial := InitialProp.undef, animate := AnimateProp.lbl "visible",
    variants := none, whileTap := AnimateProp.undef,
    whileHover := AnimateProp.undef, layoutId := none }

/-- Witness for the amended C4 at a concrete child declaring a nonempty
animate label. -/
theorem layoutDepth_monotone_witness :
    ctxParent0.layoutDepth ≤
      (buildContext ctxParent0 0 false depthProps none psA).layoutDepth ∧
    ((buildContext ctxParent0 0 false depthProps none psA).layoutDepth =
        ctxParent0.layoutDepth + 1 ↔
      ((depthProps.animate ≠ AnimateProp.undef ∧
        depthProps.animate ≠ AnimateProp.lbl "") ∨ depthProps.layoutId ≠ none)) ∧
    ((buildContext ctxParent0 0 false depthProps none psA).layoutDepth =
        ctxParent0.layoutDepth ↔
      ¬((depthProps.animate ≠ AnimateProp.undef ∧
         depthProps.animate ≠ AnimateProp.lbl "") ∨ depthProps.layoutId ≠ none)) :=
  layoutDepth_monotone ctxParent0 0 false depthProps none psA

/-! ## Propagation roots (C6) -/

theorem isVariantLabel_iff (a : AnimateProp) :
    isVariantLabel a = true ↔
      (∃ s, a = AnimateProp.lbl s) ∨ (∃ r, a = AnimateProp.lblArr r) := by
  cases a <;> simp [isVariantLabel]

theorem isAnimationControls_iff (a : AnimateProp) :
    isAnimationControls a = true ↔ ∃ r, a = AnimateProp.controlsHandle r := by
  cases a <;> simp [isAnimationControls]

/-- C6: a component is a propagation root exactly when it declares
variants, or its animate, whileTap or whileHover prop is a variant label
(a string or an array of strings), or its animate prop is an imperative
animation-controls handle; and the derived context's controls field is
the component's own controls when it is a propagation root and the
parent context's controls unchanged otherwise. -/
theorem propagation_root_controls (parent : MotionContextProps) (controls : Nat)
    (isStatic : Bool) (props : CtxProps) (presence : Option Presence)
    (ps : PersistentState) :
    (shouldPropagateControls props = true ↔
      (props.variants ≠ none ∨
       (∃ s, props.animate = AnimateProp.lbl s) ∨
       (∃ r, props.animate = AnimateProp.lblArr r) ∨
       (∃ s, props.whileTap = AnimateProp.lbl s) ∨
       (∃ r, props.whileTap = AnimateProp.lblArr r) ∨
       (∃ s, props.whileHover = AnimateProp.lbl s) ∨
       (∃ r, props.whileHover = AnimateProp.lblArr r) ∨
       (∃ r, props.animate = AnimateProp.controlsHandle r))) ∧
    (buildContext parent controls isStatic props presence ps).controls =
      (if shouldPropagateControls props = true then some controls
       else parent.controls) := by
  constructor
  · rw [shouldPropagateControls]
    simp only [Bool.or_eq_true, isVariantLabel_iff, isAnimationControls_iff,
      Option.isSome_iff_ne_none]
    tauto
  · rfl

def rootProps : CtxProps :=
  { initial := InitialProp.undef, animate := AnimateProp.target 4,
    variants := some 6, whileTap := AnimateProp.undef,
    whileHover := AnimateProp.undef, layoutId := none }

/-- Witness for C6 at a component declaring variants with a literal
animate target. -/
theorem propagation_root_controls_witness :
    (shouldPropagateControls rootProps = true ↔
      (rootProps.variants ≠ none ∨
       (∃ s, rootProps.animate = AnimateProp.lbl s) ∨
       (∃ r, rootProps.animate = AnimateProp.lblArr r) ∨
       (∃ s, rootProps.whileTap = AnimateProp.lbl s) ∨
       (∃ r, rootProps.whileTap = AnimateProp.lblArr r) ∨
       (∃ s, rootProps.whileHover = AnimateProp.lbl s) ∨
       (∃ r, rootProps.whileHover = AnimateProp.lblArr r) ∨
       (∃ r, rootProps.animate = AnimateProp.controlsHandle r))) ∧
    (buildContext initialMotionContext 3 false rootProps none psA).controls =
      (if shouldPropagateControls rootProps = true then some 3
       else initialMotionContext.controls) :=
  propagation_root_controls initialMotionContext 3 false rootProps none psA

/-! ## Initial-state resolution (C7) -/

/-- Specification-side restatement of the initial-state resolution, written
from the claim: an ambient presence override, when defined, replaces the
prop-level initial; then, if the effective initial is the literal false and
animate is not an imperative controls handle, the resolved initial state
is the animate value itself; otherwise, if the effective initial is not a
boolean, the resolved initial state is that initial directly; otherwise it
is undefined. -/
def initialResolutionSpec (presence : Option Presence) (i : InitialProp)
    (a : AnimateProp) : Option TAL :=
  let eff :=
    match presence with
    | some pc =>
        match pc.initial with
        | some ov => ov
        | none => i
    | none => i
  match eff with
  | InitialProp.bFalse =>
      match a with
      | AnimateProp.controlsHandle _ => none
      | AnimateProp.undef => none
      | AnimateProp.lbl s => some (TAL.lbl s)
      | AnimateProp.lblArr r => some (TAL.lblArr r)
      | AnimateProp.target r => some (TAL.target r)
  | InitialProp.bTrue => none
  | InitialProp.undef => none
  | InitialProp.lbl s => some (TAL.lbl s)
  | InitialProp.lblArr r => some (TAL.lblArr r)
  | InitialProp.target r => some (TAL.target r)

/-- C7: the initialState computation of useMotionContext agrees with the
specification's case analysis on every presence scope, initial prop and
animate prop. -/
theorem initial_resolution_correct (presence : Option Presence) (i : InitialProp)
    (a : AnimateProp) :
    resolveInitialState presence i a = initialResolutionSpec presence i a := by
  rcases presence with _ | pc
  · cases i <;> cases a <;> rfl
  · rcases pc with ⟨pid, pinit⟩
    rcases pinit with _ | ov
    · cases i <;> cases a <;> rfl
    · cases ov <;> cases a <;> rfl

/-- Witness for C7: a presence override replacing initial with false
makes the resolved state snap to the animate label. -/
theorem initial_resolution_correct_witness :
    resolveInitialState (some { id := 1, initial := some InitialProp.bFalse })
        (InitialProp.target 5) (AnimateProp.lbl "open") =
      initialResolutionSpec (some { id := 1, initial := some InitialProp.bFalse })
        (InitialProp.target 5) (AnimateProp.lbl "open") :=
  initial_resolution_correct (some { id := 1, initial := some InitialProp.bFalse })
    (InitialProp.target 5) (AnimateProp.lbl "open")

/-! ## Context identity stability (C5) and invisibility of
variants/whileTap/whileHover changes (C10) -/

/-- C5: re-deriving the context with an unchanged dependency set (same
resolved initial dependency, same animate dependency, same parent
reduced-motion flag, same raw animate prop, same layoutId, same presence
id, i.e. the six fields of the computed dependency record) returns the
stored context object with the same identity, every field unchanged
except the static field, which is refreshed to the current rendering
mode. -/
theorem context_identity_stable (parent : MotionContextProps) (controls : Nat)
    (isStatic : Bool) (props : CtxProps) (presence : Option Presence)
    (ps : PersistentState) (c : MemoCell) (freshId : Nat)
    (hdeps : computeDeps parent isStatic props presence = c.deps) :
    useMotionContext parent controls isStatic props presence ps (some c) freshId =
      ({ c.ctx with static := isStatic }, c.ctxId,
       { deps := c.deps, ctx := { c.ctx with static := isStatic },
         ctxId := c.ctxId }) := by
  unfold useMotionContext
  rw [hdeps]
  simp

def c5props : CtxProps :=
  { initial := InitialProp.undef, animate := AnimateProp.lbl "on",
    variants := none, whileTap := AnimateProp.undef,
    whileHover := AnimateProp.undef, layoutId := none }

def c5cell : MemoCell :=
  (useMotionContext initialMotionContext 3 false c5props none psA none 10).2.2

/-- Witness for C5: a second evaluation with the same inputs reuses the
stored context and identity. -/
theorem context_identity_stable_witness :
    useMotionContext initialMotionContext 3 false c5props none psA (some c5cell) 11 =
      ({ c5cell.ctx with static := false }, c5cell.ctxId,
       { deps := c5cell.deps, ctx := { c5cell.ctx with static := false },
         ctxId := c5cell.ctxId }) :=
  context_identity_stable initialMotionContext 3 false c5props none psA c5cell 11
    (by decide)

/-- C10: two consecutive evaluations that differ only in the variants,
whileTap or whileHover props, with all six memo dependencies equal and
the propagation-root status flipped by the change, return the identical
prior context object (same identity): in particular its controls field
still reflects the propagation-root decision made at the first
evaluation, not the flipped current status. -/
theorem variant_prop_change_invisible (parent : MotionContextProps) (controls : Nat)
    (isStatic : Bool) (presence : Option Presence) (ps : PersistentState)
    (p1 p2 : CtxProps) (freshId1 freshId2 : Nat)
    (_hOnly : p2.initial = p1.initial ∧ p2.animate = p1.animate ∧
      p2.layoutId = p1.layoutId)
    (hdeps : computeDeps parent isStatic p2 presence =
      computeDeps parent isStatic p1 presence)
    (_hflip : shouldPropagateControls p2 ≠ shouldPropagateControls p1) :
    (useMotionContext parent controls isStatic p2 presence ps
        (some (useMotionContext parent controls isStatic p1 presence ps
          none freshId1).2.2) freshId2).1 =
      (useMotionContext parent controls isStatic p1 presence ps none freshId1).1 ∧
    (useMotionContext parent controls isStatic p2 presence ps
        (some (useMotionContext parent controls isStatic p1 presence ps
          none freshId1).2.2) freshId2).2.1 =
      (useMotionContext parent controls isStatic p1 presence ps none freshId1).2.1 ∧
    (useMotionContext parent controls isStatic p2 presence ps
        (some (useMotionContext parent controls isStatic p1 presence ps
          none freshId1).2.2) freshId2).1.controls =
      (if shouldPropagateControls p1 then some controls else parent.controls) := by
  have hred : useMotionContext parent controls isStatic p2 presence ps
      (some (useMotionContext parent controls isStatic p1 presence ps
        none freshId1).2.2) freshId2 =
      ({ buildContext parent controls isStatic p1 presence ps with
          static := isStatic },
       freshId1,
       { deps := computeDeps parent isStatic p1 presence
         ctx := { buildContext parent controls isStatic p1 presence ps with
           static := isStatic }
         ctxId := freshId1 }) := by
    show useMotionContext parent controls isStatic p2 presence ps
        (some { deps := computeDeps parent isStatic p1 presence
                ctx := buildContext parent controls isStatic p1 presence ps
                ctxId := freshId1 }) freshId2 = _
    unfold useMotionContext
    rw [hdeps]
    simp
  have heta : { buildContext parent controls isStatic p1 presence ps with
      static := isStatic } = buildContext parent controls isStatic p1 presence ps := rfl
  rw [hred, heta]
  exact ⟨rfl, rfl, rfl⟩

def c10p1 : CtxProps :=
  { initial := InitialProp.undef, animate := AnimateProp.target 0,
    variants := none, whileTap := AnimateProp.undef,
    whileHover := AnimateProp.undef, layoutId := none }

def c10p2 : CtxProps := { c10p1 with variants := some 5 }

/-- Witness for C10: adding a variants prop (flipping the propagation-root
status from false to true) while the six dependencies are unchanged
leaves the previously derived context, with the parent's controls, in
place. -/
theorem variant_prop_change_invisible_witness :
    (useMotionContext initialMotionContext 3 false c10p2 none psA
        (some (useMotionContext initialMotionContext 3 false c10p1 none psA
          none 10).2.2) 11).1 =
      (useMotionContext initialMotionContext 3 false c10p1 none psA none 10).1 ∧
    (useMotionContext initialMotionContext 3 false c10p2 none psA
        (some (useMotionContext initialMotionContext 3 false c10p1 none psA
          none 10).2.2) 11).2.1 =
      (useMotionContext initialMotionContext 3 false c10p1 none psA none 10).2.1 ∧
    (useMotionContext initialMotionContext 3 false c10p2 none psA
        (some (useMotionContext initialMotionContext 3 false c10p1 none psA
          none 10).2.2) 11).1.controls =
      (if shouldPropagateControls c10p1 then some 3
       else initialMotionContext.controls) :=
  variant_prop_change_invisible initialMotionContext 3 false none psA c10p1 c10p2
    10 11 (by decide) (by decide) (by decide)
